import Mathlib

/-!
Verification development for the `converter` repository (`src/process.rs`).

The program loads a `Skill` record from a JSON document (serde) and projects it
into a flat CSV row.  This file gives a shallow embedding of the data model,
the serde-derived JSON loader, and the CSV serialization pipeline
(`serialize_csv_to_file`, `serialize_csv_vector`, the positional line-split
row assembler), and proves or refutes the specification's claims about them.

Modelling conventions:
- Rust `u8` fields are `Fin 256`; JSON numbers are `Rat` (`f32` values are kept
  as the decoded rational, they are never printed by the pipeline).
- `HashMap` fields are association lists; the maps are dropped by the encoder,
  so iteration order never matters.
- serde errors are mapped onto the specification's error taxonomy
  (`LoadError` below); Rust panics (out-of-bounds indexing in the row
  assembler) are modelled by `Option.none`.
-/

namespace Converter

/-! ### Enums of the schema (src/process.rs lines 9-59) -/

/-- Rust enum `SkillType`, wire forms given by serde renames. -/
inductive SkillType
  | Melee
  | Ranged
  | Utility
  | Spell
  | Healing
deriving DecidableEq, Repr

/-- Rust enum `DamageType`; only the first variant is renamed, so the second
keeps its variant name as wire form. -/
inductive DamageType
  | PhysicalSlashing
  | Magical
deriving DecidableEq, Repr

/-- Rust enum `Reagents`; no serde renames, so the serde wire forms are the
variant names themselves. -/
inductive Reagents
  | SparklingPowder
  | Blood
deriving DecidableEq, Repr

/-- Rust enum `ProficiencyLevel`, renamed to lowercase wire forms. -/
inductive ProficiencyLevel
  | Novice
  | Adept
  | Master
deriving DecidableEq, Repr

/-- Rust enum `Unit` (measurement units), renamed to lowercase wire forms. -/
inductive Unit
  | Meters
  | Degrees
deriving DecidableEq, Repr

/-- Rust enum `Debuff`; no rename, wire form is the variant name. -/
inductive Debuff
  | RiskOfCounterAttack
deriving DecidableEq, Repr

/-- Serde serialization (canonical wire string) of `SkillType`. -/
def SkillType.wire : SkillType → String
  | .Melee => "MeleeCombatSkill"
  | .Ranged => "RangedCombatSkill"
  | .Utility => "UtilitySkill"
  | .Spell => "SpellSkill"
  | .Healing => "HealingSkill"

/-- The five canonical wire forms of `SkillType`. -/
def skillTypeWires : List String :=
  ["MeleeCombatSkill", "RangedCombatSkill", "UtilitySkill", "SpellSkill", "HealingSkill"]

/-- Serde deserialization of `SkillType` from a wire string. -/
def SkillType.fromWire (s : String) : Option SkillType :=
  if s = "MeleeCombatSkill" then some .Melee
  else if s = "RangedCombatSkill" then some .Ranged
  else if s = "UtilitySkill" then some .Utility
  else if s = "SpellSkill" then some .Spell
  else if s = "HealingSkill" then some .Healing
  else none

/-- Serde serialization of `DamageType`. -/
def DamageType.wire : DamageType → String
  | .PhysicalSlashing => "Physical/Slashing"
  | .Magical => "Magical"

/-- Serde deserialization of `DamageType`. -/
def DamageType.fromWire (s : String) : Option DamageType :=
  if s = "Physical/Slashing" then some .PhysicalSlashing
  else if s = "Magical" then some .Magical
  else none

/-- Serde serialization of `Reagents` (the variant name, no rename). -/
def Reagents.serdeName : Reagents → String
  | .SparklingPowder => "SparklingPowder"
  | .Blood => "Blood"

/-- Serde deserialization of `Reagents`. -/
def Reagents.fromWire (s : String) : Option Reagents :=
  if s = "SparklingPowder" then some .SparklingPowder
  else if s = "Blood" then some .Blood
  else none

/-- Serde serialization of `ProficiencyLevel`. -/
def ProficiencyLevel.wire : ProficiencyLevel → String
  | .Novice => "novice"
  | .Adept => "adept"
  | .Master => "master"

/-- Serde deserialization of `ProficiencyLevel`. -/
def ProficiencyLevel.fromWire (s : String) : Option ProficiencyLevel :=
  if s = "novice" then some .Novice
  else if s = "adept" then some .Adept
  else if s = "master" then some .Master
  else none

/-- Serde serialization of `Unit`. -/
def Unit.wire : Unit → String
  | .Meters => "meters"
  | .Degrees => "degrees"

/-- Serde deserialization of `Unit`. -/
def Unit.fromWire (s : String) : Option Unit :=
  if s = "meters" then some .Meters
  else if s = "degrees" then some .Degrees
  else none

/-- Serde serialization of `Debuff`. -/
def Debuff.wire : Debuff → String
  | .RiskOfCounterAttack => "RiskOfCounterAttack"

/-- Serde deserialization of `Debuff`. -/
def Debuff.fromWire (s : String) : Option Debuff :=
  if s = "RiskOfCounterAttack" then some .RiskOfCounterAttack
  else none

/-- The `Borrow<str>` impl for `Reagents` (src/process.rs lines 160-167):
the lowercase-with-underscore forms used by the "|"-join. -/
def Reagents.borrow : Reagents → String
  | .SparklingPowder => "sparkling_powder"
  | .Blood => "blood"

/-! ### Composite structures (src/process.rs lines 61-158) -/

/-- Rust struct `SkillRequirements`; both fields carry a serde alias
("requirements.actions" / "requirements.conditions"). -/
structure SkillRequirements where
  actions : Fin 256
  conditions : String
deriving DecidableEq, Repr

/-- Rust struct `Proficiency`. -/
structure Proficiency where
  description : String
  damage_multiplier : Rat
  cooldown_factors : Fin 256
deriving DecidableEq, Repr

/-- Rust struct `SkillData` (a Measurement). -/
structure SkillData where
  value : Rat
  explanation : String
  unit : Option Unit
deriving DecidableEq, Repr

/-- Rust struct `DebuffData`. -/
structure DebuffData where
  description : String
  multiplier : Rat
  tick_duration : Fin 256
deriving DecidableEq, Repr

/-- Rust struct `SkillNotNested`: the eight top-level scalar fields, with their
serde renames recorded in the loader and the CSV header below. -/
structure SkillNotNested where
  ability_name : String
  skill_type : SkillType
  short_description : String
  extended_description : String
  narrative : String
  cooldown_seconds : Fin 256
  damage_type : DamageType
  required_skill : String
deriving DecidableEq, Repr

/-- Rust struct `Skill`.  The two `HashMap` fields are modelled as association
lists (their iteration order is irrelevant: the encoder drops them). -/
structure Skill where
  _not_nested_data : SkillNotNested
  requirements : SkillRequirements
  base_damage_multiplier : SkillData
  immediate_damage_per_use : SkillData
  effect_range : SkillData
  area_damage_arc : SkillData
  proficiency_levels : List (ProficiencyLevel × Proficiency)
  debuffs : List (Debuff × DebuffData)
  required_reagents : List Reagents
  aspects : List String
deriving DecidableEq, Repr

/-- Rust struct `SkillCsv` (src/process.rs lines 150-158). -/
structure SkillCsv where
  _not_nested_data : SkillNotNested
  required_reagents : List Reagents
  aspects : List String
deriving DecidableEq, Repr

/-- The `From<Skill> for SkillCsv` impl (src/process.rs lines 252-260). -/
def SkillCsv.fromSkill (skill : Skill) : SkillCsv :=
  { _not_nested_data := skill._not_nested_data
    required_reagents := skill.required_reagents
    aspects := skill.aspects }

/-! ### The "|" joins (src/process.rs lines 178-190) -/

/-- Separator join as performed by Rust slice `join`. -/
def joinSep (sep : String) : List String → String
  | [] => ""
  | [x] => x
  | x :: xs => x ++ sep ++ joinSep sep xs

/-- `serialize_reagents` (src/process.rs lines 178-183): joins the reagents
with "|" using the `Borrow<str>` strings and emits the result as one string. -/
def serialize_reagents (vec : List Reagents) : String :=
  joinSep "|" (vec.map Reagents.borrow)

/-- `serialize_aspects` (src/process.rs lines 185-190). -/
def serialize_aspects (vec : List String) : String :=
  joinSep "|" vec

/-! ### CSV writing (the `csv` crate with default settings)

A field is quoted when it contains the delimiter, the quote character, or the
record terminator (QuoteStyle::Necessary); quotes are escaped by doubling.
A record made of a single empty field is written as a quoted empty field, so
that it is distinguishable from an empty record.  Each record ends with the
terminator "\n". -/

/-- Does the csv writer need to quote this field? -/
def csvNeedsQuote (s : String) : Bool :=
  s.data.any (fun c => c == ',' || c == '"' || c == '\n')

/-- Double every quote character (the csv crate's DoubleQuote escaping). -/
def escQuote : List Char → List Char
  | [] => []
  | c :: rest => if c == '"' then '"' :: '"' :: escQuote rest else c :: escQuote rest

/-- One csv field as written by the csv crate. -/
def csvEscape (s : String) : String :=
  if csvNeedsQuote s then "\"" ++ String.mk (escQuote s.data) ++ "\"" else s

/-- One csv record (without the terminator) as written by the csv crate. -/
def csvRecordLine (fields : List String) : String :=
  if fields = [""] then "\"\"" else joinSep "," (fields.map csvEscape)

/-- The csv header names of `SkillNotNested` (serde renames applied), in field
declaration order, as emitted by the writer's automatic header row. -/
def scalar_header_fields : List String :=
  ["abilityName", "type", "shortDescription", "extendedDescription", "narrative",
   "cooldownSeconds", "damageType", "requiredSkill"]

/-- The serialized field values of a `SkillNotNested` record, in field
declaration order; enum fields re-encode to their canonical wire strings and
the `u8` field prints in decimal. -/
def scalarValueFields (nn : SkillNotNested) : List String :=
  [nn.ability_name, SkillType.wire nn.skill_type, nn.short_description,
   nn.extended_description, nn.narrative, toString nn.cooldown_seconds.val,
   DamageType.wire nn.damage_type, nn.required_skill]

/-- `writer.serialize(csv._not_nested_data)` with headers enabled
(src/process.rs lines 212-217): a header record and a value record. -/
def notNestedSection (nn : SkillNotNested) : String :=
  csvRecordLine scalar_header_fields ++ "\n" ++ csvRecordLine (scalarValueFields nn) ++ "\n"

/-- `serialize_csv_vector` (src/process.rs lines 241-250): a headerless writer
serializes the whole slice as ONE record (each element one field) followed by
the record terminator.  The argument is the list of serde-serialized element
strings (`Reagents.serdeName` for reagents, the raw strings for aspects). -/
def serialize_csv_vector (fields : List String) : String :=
  csvRecordLine fields ++ "\n"

/-! ### The row assembler and `serialize_csv_to_file` -/

/-- Splitting a string at every occurrence of a separator character, as Rust's
str::split("\n") does (quoted csv fields are NOT respected). -/
def splitCharList (sep : Char) : List Char → List (List Char)
  | [] => [[]]
  | c :: rest =>
    if c = sep then [] :: splitCharList sep rest
    else
      match splitCharList sep rest with
      | [] => [[c]]
      | h :: t => (c :: h) :: t

/-- String-level wrapper for `splitCharList`. -/
def splitChar (sep : Char) (s : String) : List String :=
  (splitCharList sep s.data).map String.mk

/-- Rust `str.split("\n")`. -/
def splitNl : String → List String := splitChar '\n'

/-- Splitting a csv line at commas (used to count/inspect the cells of lines
that contain no quoted fields). -/
def splitComma : String → List String := splitChar ','

/-- The fold of src/process.rs lines 226-234: for each section string, push
split[0] onto the header sequence and split[1] onto the row sequence.
Rust indexes the split unconditionally; a section with fewer than two split
parts makes it panic, modelled by `none`. -/
def assembleSections (sections : List String) : Option (List String × List String) :=
  sections.foldl
    (fun acc s =>
      match acc with
      | none => none
      | some (hdr, row) =>
        match splitNl s with
        | p0 :: p1 :: _ => some (hdr ++ [p0], row ++ [p1])
        | _ => none)
    (some ([], []))

/-- Rust `PathBuf::set_extension`: replace the extension of the final path
component (the part after its last dot, when the dot is not the leading
character), or append a dot and the extension when there is none. -/
def setExtension (p ext : String) : String :=
  let cs := p.data
  let nameRev := cs.reverse.takeWhile (fun c => c ≠ '/')
  let name := nameRev.reverse
  let dir := cs.take (cs.length - name.length)
  let newName :=
    if '.' ∈ name.drop 1 then
      (((name.reverse.dropWhile (fun c => c ≠ '.')).drop 1).reverse) ++ '.' :: ext.data
    else
      name ++ '.' :: ext.data
  String.mk (dir ++ newName)

/-- `serialize_csv_to_file` (src/process.rs lines 209-239).  The function's
observable outcome: the destination path after `set_extension("csv")` and the
(header sequence, row sequence) pair produced by the positional fold (the pair
is only logged/printed by the Rust code; nothing is ever written to the path).
`none` models the index panic of the fold; no other failure can occur because
the writers target in-memory buffers. -/
def serialize_csv_to_file (skill : Skill) (path : String) :
    String × Option (List String × List String) :=
  let newPath := setExtension path "csv"
  let csv := SkillCsv.fromSkill skill
  let not_nested := notNestedSection csv._not_nested_data
  let reagents := serialize_csv_vector (csv.required_reagents.map Reagents.serdeName)
  let aspects := serialize_csv_vector csv.aspects
  (newPath, assembleSections [not_nested, reagents, aspects])

/-! ### JSON documents and the serde loader (`deserialize_json`, line 203)

`serde_json::from_str::<Skill>` is embedded as a total function from a JSON
value to `Except LoadError Skill`.  JSON numbers are rationals.  Object fields
are read by key lookup (first occurrence); with `#[serde(flatten)]` on
`_not_nested_data`, unknown keys are ignored rather than rejected.  Field
unwrapping follows struct declaration order, so the flattened `SkillNotNested`
is decoded first, exactly as in the serde-derived code. -/

/-- A JSON value. -/
inductive Json
  | null
  | bool (b : Bool)
  | num (q : Rat)
  | str (s : String)
  | arr (elems : List Json)
  | obj (fields : List (String × Json))

/-- First-occurrence key lookup in a JSON object field list. -/
def lookupKey (k : String) : List (String × Json) → Option Json
  | [] => none
  | (key, v) :: rest => if k = key then some v else lookupKey k rest

/-- Field access on a JSON value (`none` on non-objects and absent keys). -/
def getField (j : Json) (k : String) : Option Json :=
  match j with
  | .obj kvs => lookupKey k kvs
  | _ => none

/-- The specification's loader error taxonomy (section 7); serde's
unknown-variant, missing-field, wrong-shape and out-of-range errors are mapped
onto it, each error naming the offending field. -/
inductive LoadError
  | missingRequiredField (path : String)
  | typeMismatch (path : String)
  | invalidEnumValue (path : String) (value : String)
  | invalidNumericValue (path : String)
deriving DecidableEq, Repr

/-- Decode a required field of an object, failing with `MissingRequiredField`
when the key is absent. -/
def reqField {α : Type} (j : Json) (key : String)
    (f : String → Json → Except LoadError α) : Except LoadError α :=
  match getField j key with
  | some v => f key v
  | none => .error (.missingRequiredField key)

/-- Decode a field that serde reads under a primary name or an alias; errors
are reported under the primary name. -/
def aliasField {α : Type} (j : Json) (key aliasKey : String)
    (f : String → Json → Except LoadError α) : Except LoadError α :=
  match getField j key with
  | some v => f key v
  | none =>
    match getField j aliasKey with
    | some v => f key v
    | none => .error (.missingRequiredField key)

/-- Decode a JSON string. -/
def decodeString (path : String) : Json → Except LoadError String
  | .str s => .ok s
  | _ => .error (.typeMismatch path)

/-- Decode a Rust `u8`: an integral JSON number in `[0, 255]`. -/
def decodeU8 (path : String) : Json → Except LoadError (Fin 256)
  | .num q =>
    if h : q.den = 1 ∧ 0 ≤ q.num ∧ q.num ≤ 255 then
      .ok ⟨q.num.toNat, by omega⟩
    else
      .error (.invalidNumericValue path)
  | _ => .error (.typeMismatch path)

/-- Decode a Rust `f32` (any JSON number; the value is kept as a rational). -/
def decodeF32 (path : String) : Json → Except LoadError Rat
  | .num q => .ok q
  | _ => .error (.typeMismatch path)

/-- Decode a `SkillType` from its wire string. -/
def decodeSkillType (path : String) : Json → Except LoadError SkillType
  | .str s =>
    match SkillType.fromWire s with
    | some t => .ok t
    | none => .error (.invalidEnumValue path s)
  | _ => .error (.typeMismatch path)

/-- Decode a `DamageType` from its wire string. -/
def decodeDamageType (path : String) : Json → Except LoadError DamageType
  | .str s =>
    match DamageType.fromWire s with
    | some t => .ok t
    | none => .error (.invalidEnumValue path s)
  | _ => .error (.typeMismatch path)

/-- Decode the optional `unit` field of a Measurement: missing and null both
give `none` (serde's implicit Option default). -/
def decodeUnitOpt (j : Json) : Except LoadError (Option Unit) :=
  match getField j "unit" with
  | none => .ok none
  | some .null => .ok none
  | some (.str s) =>
    match Unit.fromWire s with
    | some u => .ok (some u)
    | none => .error (.invalidEnumValue "unit" s)
  | some _ => .error (.typeMismatch "unit")

/-- Decode `SkillRequirements`: each field is read under its name or its
pre-dotted serde alias, both looked up inside this object. -/
def decodeSkillRequirements (path : String) : Json → Except LoadError SkillRequirements
  | .obj kvs => do
    let a ← aliasField (Json.obj kvs) "actions" "requirements.actions" decodeU8
    let c ← aliasField (Json.obj kvs) "conditions" "requirements.conditions" decodeString
    return ⟨a, c⟩
  | _ => .error (.typeMismatch path)

/-- Decode a `SkillData` Measurement. -/
def decodeSkillData (path : String) : Json → Except LoadError SkillData
  | .obj kvs => do
    let v ← reqField (Json.obj kvs) "value" decodeF32
    let e ← reqField (Json.obj kvs) "explanation" decodeString
    let u ← decodeUnitOpt (Json.obj kvs)
    return ⟨v, e, u⟩
  | _ => .error (.typeMismatch path)

/-- Decode a `Proficiency` map value. -/
def decodeProficiency (path : String) : Json → Except LoadError Proficiency
  | .obj kvs => do
    let d ← reqField (Json.obj kvs) "description" decodeString
    let m ← reqField (Json.obj kvs) "damageMultiplier" decodeF32
    let c ← reqField (Json.obj kvs) "cooldownFactors" decodeU8
    return ⟨d, m, c⟩
  | _ => .error (.typeMismatch path)

/-- Decode a `DebuffData` map value. -/
def decodeDebuffData (path : String) : Json → Except LoadError DebuffData
  | .obj kvs => do
    let d ← reqField (Json.obj kvs) "description" decodeString
    let m ← reqField (Json.obj kvs) "multiplier" decodeF32
    let t ← reqField (Json.obj kvs) "tickDuration" decodeU8
    return ⟨d, m, t⟩
  | _ => .error (.typeMismatch path)

/-- Decode the entries of the proficiency-level map: each object key is
matched against the `ProficiencyLevel` wire table, unknown keys rejected. -/
def decodeProfEntries (path : String) :
    List (String × Json) → Except LoadError (List (ProficiencyLevel × Proficiency))
  | [] => .ok []
  | (k, v) :: rest => do
    let key ←
      match ProficiencyLevel.fromWire k with
      | some pk => Except.ok pk
      | none => Except.error (.invalidEnumValue path k)
    let pv ← decodeProficiency k v
    let tail ← decodeProfEntries path rest
    return (key, pv) :: tail

/-- Decode the `proficiencyLevels` map. -/
def decodeProficiencyLevels (path : String) :
    Json → Except LoadError (List (ProficiencyLevel × Proficiency))
  | .obj kvs => decodeProfEntries path kvs
  | _ => .error (.typeMismatch path)

/-- Decode the entries of the debuff map. -/
def decodeDebuffEntries (path : String) :
    List (String × Json) → Except LoadError (List (Debuff × DebuffData))
  | [] => .ok []
  | (k, v) :: rest => do
    let key ←
      match Debuff.fromWire k with
      | some dk => Except.ok dk
      | none => Except.error (.invalidEnumValue path k)
    let dv ← decodeDebuffData k v
    let tail ← decodeDebuffEntries path rest
    return (key, dv) :: tail

/-- Decode the `debuffs` map. -/
def decodeDebuffs (path : String) : Json → Except LoadError (List (Debuff × DebuffData))
  | .obj kvs => decodeDebuffEntries path kvs
  | _ => .error (.typeMismatch path)

/-- Decode the elements of the ordered reagent list. -/
def decodeReagentElems (path : String) : List Json → Except LoadError (List Reagents)
  | [] => .ok []
  | .str s :: rest => do
    let r ←
      match Reagents.fromWire s with
      | some r => Except.ok r
      | none => Except.error (.invalidEnumValue path s)
    let tail ← decodeReagentElems path rest
    return r :: tail
  | _ :: _ => .error (.typeMismatch path)

/-- Decode the `requiredReagents` list. -/
def decodeReagentsList (path : String) : Json → Except LoadError (List Reagents)
  | .arr elems => decodeReagentElems path elems
  | _ => .error (.typeMismatch path)

/-- Decode the elements of the aspect list. -/
def decodeAspectElems (path : String) : List Json → Except LoadError (List String)
  | [] => .ok []
  | .str s :: rest => do
    let tail ← decodeAspectElems path rest
    return s :: tail
  | _ :: _ => .error (.typeMismatch path)

/-- Decode the `aspects` list. -/
def decodeAspects (path : String) : Json → Except LoadError (List String)
  | .arr elems => decodeAspectElems path elems
  | _ => .error (.typeMismatch path)

/-- Decode the flattened `SkillNotNested` part of a skill document: its eight
fields are read from the top-level object under their serde renames, in field
declaration order. -/
def decodeSkillNotNested (j : Json) : Except LoadError SkillNotNested := do
  let an ← reqField j "abilityName" decodeString
  let ty ← reqField j "type" decodeSkillType
  let sd ← reqField j "shortDescription" decodeString
  let ed ← reqField j "extendedDescription" decodeString
  let na ← reqField j "narrative" decodeString
  let cd ← reqField j "cooldownSeconds" decodeU8
  let dt ← reqField j "damageType" decodeDamageType
  let rs ← reqField j "requiredSkill" decodeString
  return ⟨an, ty, sd, ed, na, cd, dt, rs⟩

/-- `serde_json::from_str::<Skill>`: decode a whole skill document, aborting on
the first error (fields unwrapped in declaration order, the flattened part
first, mirroring the serde-derived impl for `Skill`). -/
def deserializeSkill (j : Json) : Except LoadError Skill := do
  let nn ← decodeSkillNotNested j
  let req ← reqField j "requirements" decodeSkillRequirements
  let bdm ← reqField j "baseDamageMultiplier" decodeSkillData
  let idpu ← reqField j "immediateDamagePerUse" decodeSkillData
  let er ← reqField j "effectRange" decodeSkillData
  let ada ← reqField j "areaDamageArc" decodeSkillData
  let pl ← reqField j "proficiencyLevels" decodeProficiencyLevels
  let db ← reqField j "debuffs" decodeDebuffs
  let rg ← reqField j "requiredReagents" decodeReagentsList
  let asp ← reqField j "aspects" decodeAspects
  return ⟨nn, req, bdm, idpu, er, ada, pl, db, rg, asp⟩

/-! ### Canonical documents

Encoding a `Skill` back into the nested document form of the field-naming
table (spec section 6).  Used to quantify over well-formed input documents. -/

/-- The canonical document form of a Measurement; an absent unit is omitted. -/
def skillDataToJson (sd : SkillData) : Json :=
  match sd.unit with
  | none => .obj [("value", .num sd.value), ("explanation", .str sd.explanation)]
  | some u =>
    .obj [("value", .num sd.value), ("explanation", .str sd.explanation),
          ("unit", .str (Unit.wire u))]

/-- The canonical document form of a `Proficiency`. -/
def proficiencyToJson (p : Proficiency) : Json :=
  .obj [("description", .str p.description),
        ("damageMultiplier", .num p.damage_multiplier),
        ("cooldownFactors", .num (p.cooldown_factors.val : Rat))]

/-- The canonical document form of a `DebuffData`. -/
def debuffDataToJson (d : DebuffData) : Json :=
  .obj [("description", .str d.description),
        ("multiplier", .num d.multiplier),
        ("tickDuration", .num (d.tick_duration.val : Rat))]

/-- The canonical document for a skill, with the category slot holding an
arbitrary string (used to probe unknown enum wire values). -/
def skillToJsonWithCategory (s : Skill) (cat : String) : Json :=
  .obj [("abilityName", .str s._not_nested_data.ability_name),
        ("type", .str cat),
        ("shortDescription", .str s._not_nested_data.short_description),
        ("extendedDescription", .str s._not_nested_data.extended_description),
        ("narrative", .str s._not_nested_data.narrative),
        ("cooldownSeconds", .num (s._not_nested_data.cooldown_seconds.val : Rat)),
        ("damageType", .str (DamageType.wire s._not_nested_data.damage_type)),
        ("requiredSkill", .str s._not_nested_data.required_skill),
        ("requirements",
          .obj [("actions", .num (s.requirements.actions.val : Rat)),
                ("conditions", .str s.requirements.conditions)]),
        ("baseDamageMultiplier", skillDataToJson s.base_damage_multiplier),
        ("immediateDamagePerUse", skillDataToJson s.immediate_damage_per_use),
        ("effectRange", skillDataToJson s.effect_range),
        ("areaDamageArc", skillDataToJson s.area_damage_arc),
        ("proficiencyLevels",
          .obj (s.proficiency_levels.map fun pr => (ProficiencyLevel.wire pr.1, proficiencyToJson pr.2))),
        ("debuffs",
          .obj (s.debuffs.map fun pr => (Debuff.wire pr.1, debuffDataToJson pr.2))),
        ("requiredReagents", .arr (s.required_reagents.map fun r => .str (Reagents.serdeName r))),
        ("aspects", .arr (s.aspects.map Json.str))]

/-- The canonical document for a skill. -/
def skillToJson (s : Skill) : Json :=
  skillToJsonWithCategory s (SkillType.wire s._not_nested_data.skill_type)

/-! ### Analysis helpers and concrete inputs -/

/-- Total number of comma-separated cells across the lines of a sequence
(valid cell count for lines containing no quoted fields). -/
def totalCells (lines : List String) : Nat :=
  (lines.map (fun l => (splitComma l).length)).sum

/-- A concrete valid `SkillNotNested`. -/
def exampleNotNested : SkillNotNested :=
  ⟨"Fireball", .Spell, "Hurls fire", "Hurls a ball of fire", "A classic", 30, .Magical, "Arcana"⟩

/-- A concrete valid skill with two reagents and one aspect. -/
def exampleSkill : Skill :=
  { _not_nested_data := exampleNotNested
    requirements := ⟨2, "standing"⟩
    base_damage_multiplier := ⟨2, "x2", none⟩
    immediate_damage_per_use := ⟨5, "on hit", none⟩
    effect_range := ⟨10, "radius", some .Meters⟩
    area_damage_arc := ⟨90, "arc", some .Degrees⟩
    proficiency_levels := [(.Novice, ⟨"novice level", 1, 1⟩)]
    debuffs := [(.RiskOfCounterAttack, ⟨"risk", 2, 3⟩)]
    required_reagents := [.Blood, .SparklingPowder]
    aspects := ["melee"] }

/-- The canonical document of `exampleSkill`. -/
def exampleDoc : Json := skillToJson exampleSkill

/-- `exampleSkill` with its two maps replaced by different well-formed maps
and everything else unchanged. -/
def exampleSkillOtherMaps : Skill :=
  { exampleSkill with
    proficiency_levels := [(.Adept, ⟨"adept level", 2, 2⟩), (.Master, ⟨"master level", 3, 1⟩)]
    debuffs := [] }

/-- The canonical document of `exampleSkillOtherMaps`: it differs from
`exampleDoc` only in the two map entries. -/
def exampleDocOtherMaps : Json := skillToJson exampleSkillOtherMaps

/-- `exampleSkill` with an aspect containing a line break. -/
def exampleSkillNlAspect : Skill :=
  { exampleSkill with aspects := ["a\nb"] }

/-- A document carrying the Requirements fields as pre-flattened dotted keys at
top level, with no nested requirements object; every other field is valid. -/
def flatReqDoc : Json :=
  .obj [("abilityName", .str "Fireball"),
        ("type", .str "SpellSkill"),
        ("shortDescription", .str "Hurls fire"),
        ("extendedDescription", .str "Hurls a ball of fire"),
        ("narrative", .str "A classic"),
        ("cooldownSeconds", .num 30),
        ("damageType", .str "Magical"),
        ("requiredSkill", .str "Arcana"),
        ("requirements.actions", .num 2),
        ("requirements.conditions", .str "standing"),
        ("baseDamageMultiplier", skillDataToJson ⟨2, "x2", none⟩),
        ("immediateDamagePerUse", skillDataToJson ⟨5, "on hit", none⟩),
        ("effectRange", skillDataToJson ⟨10, "radius", some .Meters⟩),
        ("areaDamageArc", skillDataToJson ⟨90, "arc", some .Degrees⟩),
        ("proficiencyLevels", .obj []),
        ("debuffs", .obj []),
        ("requiredReagents", .arr [.str "Blood"]),
        ("aspects", .arr [.str "melee"])]

/-- The field list of a JSON object (empty for non-objects). -/
def jsonFields : Json → List (String × Json)
  | .obj kvs => kvs
  | _ => []

/-- Two object field lists agree structurally except possibly at the excluded
keys: same key spine, equal values everywhere outside the exclusion list. -/
def agreeExcept (exc : List String) : List (String × Json) → List (String × Json) → Prop
  | [], [] => True
  | (k1, v1) :: t1, (k2, v2) :: t2 => k1 = k2 ∧ (k1 ∈ exc ∨ v1 = v2) ∧ agreeExcept exc t1 t2
  | _, _ => False

/-! ### Helper lemmas: splitting and csv lines -/

/-- Rebuilding a string from its character data is the identity. -/
theorem stringMkData (s : String) : String.mk s.data = s := rfl

/-- Splitting never produces an empty list of parts. -/
theorem splitCharList_ne_nil (sep : Char) (l : List Char) : splitCharList sep l ≠ [] := by
  induction l with
  | nil => simp [splitCharList]
  | cons c rest ih =>
    simp only [splitCharList]
    split
    · simp
    · cases h : splitCharList sep rest with
      | nil => simp
      | cons hd tl => simp

/-- Splitting at a separator that first occurs after a separator-free prefix
peels off that prefix as the first part. -/
theorem splitCharList_cons_sep (sep : Char) (l1 l2 : List Char) (h : sep ∉ l1) :
    splitCharList sep (l1 ++ sep :: l2) = l1 :: splitCharList sep l2 := by
  induction l1 with
  | nil => simp [splitCharList]
  | cons c rest ih =>
    simp only [List.mem_cons, not_or] at h
    simp only [List.cons_append, splitCharList, List.append_eq]
    rw [if_neg (fun e => h.1 e.symm), ih h.2]

/-- A trailing separator contributes one final empty part. -/
theorem splitCharList_append_sep (sep : Char) (l : List Char) :
    splitCharList sep (l ++ [sep]) = splitCharList sep l ++ [[]] := by
  induction l with
  | nil => simp [splitCharList]
  | cons c rest ih =>
    simp only [List.cons_append, splitCharList, List.append_eq]
    split
    · simp [ih]
    · cases h : splitCharList sep rest with
      | nil => exact absurd h (splitCharList_ne_nil sep rest)
      | cons hd tl => rw [ih, h]; simp

/-- Splitting a string at a line break that follows a break-free prefix. -/
theorem splitNl_cons_line (a b : String) (h : '\n' ∉ a.data) :
    splitNl (a ++ "\n" ++ b) = a :: splitNl b := by
  unfold splitNl splitChar
  rw [String.data_append, String.data_append,
    show ("\n" : String).data = ['\n'] from rfl,
    show (a.data ++ ['\n']) ++ b.data = a.data ++ '\n' :: b.data by simp,
    splitCharList_cons_sep _ _ _ h]
  simp [stringMkData]

/-- Splitting a break-free line plus terminator gives the line and one empty
trailing part. -/
theorem splitNl_line (a : String) (h : '\n' ∉ a.data) : splitNl (a ++ "\n") = [a, ""] := by
  unfold splitNl splitChar
  rw [String.data_append, show ("\n" : String).data = ['\n'] from rfl,
    show a.data ++ ['\n'] = a.data ++ '\n' :: ([] : List Char) by simp,
    splitCharList_cons_sep _ _ _ h]
  simp [stringMkData, splitCharList]

/-- A trailing terminator contributes one final empty part. -/
theorem splitNl_append_last (a : String) : splitNl (a ++ "\n") = splitNl a ++ [""] := by
  unfold splitNl splitChar
  rw [String.data_append, show ("\n" : String).data = ['\n'] from rfl,
    splitCharList_append_sep]
  simp

/-- Splitting never produces an empty list of parts. -/
theorem splitNl_ne_nil (s : String) : splitNl s ≠ [] := by
  unfold splitNl splitChar
  simp [splitCharList_ne_nil]

/-- Quote doubling introduces no line break. -/
theorem noNl_escQuote (l : List Char) (h : '\n' ∉ l) : '\n' ∉ escQuote l := by
  induction l with
  | nil => simp [escQuote]
  | cons d rest ih =>
    simp only [List.mem_cons, not_or] at h
    simp only [escQuote]
    split
    · simp only [List.mem_cons, not_or]
      exact ⟨by decide, by decide, ih h.2⟩
    · simp only [List.mem_cons, not_or]
      exact ⟨h.1, ih h.2⟩

/-- Escaping a break-free csv field yields a break-free field. -/
theorem noNl_csvEscape (s : String) (h : '\n' ∉ s.data) : '\n' ∉ (csvEscape s).data := by
  unfold csvEscape
  split
  · rw [String.data_append, String.data_append]
    simp only [List.mem_append, not_or, stringMkData]
    exact ⟨⟨by decide, noNl_csvEscape_aux⟩, by decide⟩
  · exact h
where noNl_csvEscape_aux : '\n' ∉ (String.mk (escQuote s.data)).data := noNl_escQuote s.data h

/-- Joining break-free fields with a break-free separator is break-free. -/
theorem noNl_joinSep (sep : String) (fields : List String) (hsep : '\n' ∉ sep.data)
    (h : ∀ f ∈ fields, '\n' ∉ f.data) : '\n' ∉ (joinSep sep fields).data := by
  induction fields with
  | nil => simp [joinSep]
  | cons f rest ih =>
    cases rest with
    | nil => simpa [joinSep] using h f (by simp)
    | cons g rest2 =>
      simp only [joinSep]
      rw [String.data_append, String.data_append]
      simp only [List.mem_append, not_or]
      refine ⟨⟨h f (by simp), hsep⟩, ?_⟩
      exact ih (fun x hx => h x (List.mem_cons_of_mem f hx))

/-- A record line over break-free fields contains no line break. -/
theorem noNl_csvRecordLine (fields : List String) (h : ∀ f ∈ fields, '\n' ∉ f.data) :
    '\n' ∉ (csvRecordLine fields).data := by
  unfold csvRecordLine
  split
  · decide
  · refine noNl_joinSep _ _ (by decide) ?_
    intro f hf
    rcases List.mem_map.1 hf with ⟨g, hg, rfl⟩
    exact noNl_csvEscape g (h g hg)

/-- The reagent wire names contain no line break. -/
theorem noNl_reagentName (r : Reagents) : '\n' ∉ (Reagents.serdeName r).data := by
  cases r <;> decide

/-- The scalar header line contains no line break. -/
theorem noNl_scalar_header : '\n' ∉ (csvRecordLine scalar_header_fields).data := by decide

/-- Unfolding the row-assembler fold on its three sections. -/
theorem assemble3 {s1 s2 s3 : String} {a1 b1 a2 b2 a3 b3 : String}
    {t1 t2 t3 : List String}
    (h1 : splitNl s1 = a1 :: b1 :: t1) (h2 : splitNl s2 = a2 :: b2 :: t2)
    (h3 : splitNl s3 = a3 :: b3 :: t3) :
    assembleSections [s1, s2, s3] = some ([a1, a2, a3], [b1, b2, b3]) := by
  simp [assembleSections, h1, h2, h3]

/-- The scalar section splits into the header line, then the parts of the
value line and a final empty part. -/
theorem split_notNested (nn : SkillNotNested) :
    splitNl (notNestedSection nn) =
      csvRecordLine scalar_header_fields ::
        splitNl (csvRecordLine (scalarValueFields nn) ++ "\n") := by
  unfold notNestedSection
  rw [String.append_assoc (csvRecordLine scalar_header_fields ++ "\n"),
    splitNl_cons_line _ _ noNl_scalar_header]

/-- With a break-free value line, the scalar section splits into exactly the
header line, the value line and a trailing empty part. -/
theorem split_notNested_clean (nn : SkillNotNested)
    (h : ∀ f ∈ scalarValueFields nn, '\n' ∉ f.data) :
    splitNl (notNestedSection nn) =
      [csvRecordLine scalar_header_fields, csvRecordLine (scalarValueFields nn), ""] := by
  rw [split_notNested, splitNl_line _ (noNl_csvRecordLine _ h)]

/-- A list section over break-free fields splits into its single data line and
a trailing empty part. -/
theorem split_vector_clean (fields : List String) (h : ∀ f ∈ fields, '\n' ∉ f.data) :
    splitNl (serialize_csv_vector fields) = [csvRecordLine fields, ""] := by
  unfold serialize_csv_vector
  exact splitNl_line _ (noNl_csvRecordLine _ h)

/-- Every section emitted by the serializers splits into at least two parts
(each ends with the record terminator). -/
theorem split_vector_shape (s : String) :
    ∃ b c t, splitNl (s ++ "\n") = b :: c :: t := by
  rw [splitNl_append_last]
  cases h : splitNl s with
  | nil => exact absurd h (splitNl_ne_nil s)
  | cons b rest =>
    cases rest with
    | nil => exact ⟨b, "", [], rfl⟩
    | cons c t => exact ⟨b, c, t ++ [""], rfl⟩

/-! ### Helper lemmas: the loader -/

/-- Bind on a success reduces to the continuation. -/
theorem exceptOkBind {ε α β : Type} (a : α) (f : α → Except ε β) :
    ((Except.ok a : Except ε α) >>= f) = f a := rfl

/-- Bind on an error short-circuits. -/
theorem exceptErrorBind {ε α β : Type} (err : ε) (f : α → Except ε β) :
    ((Except.error err : Except ε α) >>= f) = .error err := rfl

/-- Inversion: a successful bind factors through a successful first step. -/
theorem exceptBindOk {ε α β : Type} {a : Except ε α} {f : α → Except ε β} {v : β}
    (h : (a >>= f) = .ok v) : ∃ w, a = .ok w ∧ f w = .ok v := by
  cases a with
  | ok w => exact ⟨w, rfl, h⟩
  | error e => rw [exceptErrorBind] at h; exact Except.noConfusion h

/-- A string outside the wire table decodes to no `SkillType`. -/
theorem skillTypeFromWire_none {s : String} (h : s ∉ skillTypeWires) :
    SkillType.fromWire s = none := by
  simp only [skillTypeWires, List.mem_cons, List.not_mem_nil, or_false, not_or] at h
  unfold SkillType.fromWire
  split_ifs with h1 h2 h3 h4 h5
  · exact absurd h1 h.1
  · exact absurd h2 h.2.1
  · exact absurd h3 h.2.2.1
  · exact absurd h4 h.2.2.2.1
  · exact absurd h5 h.2.2.2.2
  · rfl

/-- A string that decodes to a `SkillType` is in the wire table. -/
theorem skillTypeFromWire_mem {s : String} {t : SkillType}
    (h : SkillType.fromWire s = some t) : s ∈ skillTypeWires := by
  unfold SkillType.fromWire at h
  split_ifs at h with h1 h2 h3 h4 h5
  · subst h1; decide
  · subst h2; decide
  · subst h3; decide
  · subst h4; decide
  · subst h5; decide

/-- A successfully decoded `SkillNotNested` pins down the decoded `type`
field. -/
theorem decodeNN_ok_type {j : Json} {nn : SkillNotNested}
    (h : decodeSkillNotNested j = .ok nn) :
    reqField j "type" decodeSkillType = .ok nn.skill_type := by
  unfold decodeSkillNotNested at h
  obtain ⟨an, han, h⟩ := exceptBindOk h
  obtain ⟨ty, hty, h⟩ := exceptBindOk h
  obtain ⟨sd, hsd, h⟩ := exceptBindOk h
  obtain ⟨ed, hed, h⟩ := exceptBindOk h
  obtain ⟨na, hna, h⟩ := exceptBindOk h
  obtain ⟨cd, hcd, h⟩ := exceptBindOk h
  obtain ⟨dt, hdt, h⟩ := exceptBindOk h
  obtain ⟨rs, hrs, h⟩ := exceptBindOk h
  simp only [pure, Except.pure] at h
  cases h
  exact hty

/-- A successfully loaded skill pins down the three components the encoder
uses: the flattened scalars, the reagent list and the aspect list. -/
theorem deserializeSkill_ok_parts {j : Json} {s : Skill}
    (h : deserializeSkill j = .ok s) :
    decodeSkillNotNested j = .ok s._not_nested_data ∧
      reqField j "requiredReagents" decodeReagentsList = .ok s.required_reagents ∧
      reqField j "aspects" decodeAspects = .ok s.aspects := by
  unfold deserializeSkill at h
  obtain ⟨nn, hnn, h⟩ := exceptBindOk h
  obtain ⟨req, hreq, h⟩ := exceptBindOk h
  obtain ⟨bdm, hbdm, h⟩ := exceptBindOk h
  obtain ⟨idpu, hidpu, h⟩ := exceptBindOk h
  obtain ⟨er, her, h⟩ := exceptBindOk h
  obtain ⟨ada, hada, h⟩ := exceptBindOk h
  obtain ⟨pl, hpl, h⟩ := exceptBindOk h
  obtain ⟨db, hdb, h⟩ := exceptBindOk h
  obtain ⟨rg, hrg, h⟩ := exceptBindOk h
  obtain ⟨asp, hasp, h⟩ := exceptBindOk h
  simp only [pure, Except.pure] at h
  cases h
  exact ⟨hnn, hrg, hasp⟩

/-- Reading a required field only depends on the key's value in the
document. -/
theorem reqField_congr {α : Type} {d1 d2 : Json} {k : String}
    (f : String → Json → Except LoadError α)
    (hk : getField d1 k = getField d2 k) : reqField d1 k f = reqField d2 k f := by
  unfold reqField
  rw [hk]

/-- Decoding the flattened scalars only depends on the eight scalar keys. -/
theorem decodeSkillNotNested_congr {d1 d2 : Json}
    (h : ∀ k, k ≠ "proficiencyLevels" → k ≠ "debuffs" → getField d1 k = getField d2 k) :
    decodeSkillNotNested d1 = decodeSkillNotNested d2 := by
  unfold decodeSkillNotNested
  rw [reqField_congr decodeString (h "abilityName" (by decide) (by decide)),
    reqField_congr decodeSkillType (h "type" (by decide) (by decide)),
    reqField_congr decodeString (h "shortDescription" (by decide) (by decide)),
    reqField_congr decodeString (h "extendedDescription" (by decide) (by decide)),
    reqField_congr decodeString (h "narrative" (by decide) (by decide)),
    reqField_congr decodeU8 (h "cooldownSeconds" (by decide) (by decide)),
    reqField_congr decodeDamageType (h "damageType" (by decide) (by decide)),
    reqField_congr decodeString (h "requiredSkill" (by decide) (by decide))]

/-- The encoder output only depends on the scalar block, the reagent list and
the aspect list of a skill. -/
theorem serialize_congr {s1 s2 : Skill} (p : String)
    (h1 : s1._not_nested_data = s2._not_nested_data)
    (h2 : s1.required_reagents = s2.required_reagents)
    (h3 : s1.aspects = s2.aspects) :
    serialize_csv_to_file s1 p = serialize_csv_to_file s2 p := by
  unfold serialize_csv_to_file SkillCsv.fromSkill
  rw [h1, h2, h3]

/-- Decoding the flattened scalars of a canonical document whose category slot
holds a non-wire string fails with `InvalidEnumValue` at the `type` field. -/
theorem decodeNN_badCategory (sk : Skill) (s : String)
    (hfw : SkillType.fromWire s = none) :
    decodeSkillNotNested (skillToJsonWithCategory sk s) =
      .error (.invalidEnumValue "type" s) := by
  have h1 : reqField (skillToJsonWithCategory sk s) "abilityName" decodeString
      = .ok sk._not_nested_data.ability_name := rfl
  have h2 : reqField (skillToJsonWithCategory sk s) "type" decodeSkillType
      = .error (.invalidEnumValue "type" s) := by
    show decodeSkillType "type" (.str s) = _
    simp only [decodeSkillType, hfw]
  unfold decodeSkillNotNested
  rw [h1, exceptOkBind, h2, exceptErrorBind]

/-- Loading a canonical document whose category slot holds a non-wire string
fails with `InvalidEnumValue` at the `type` field. -/
theorem deserializeSkill_badCategory (sk : Skill) (s : String)
    (hfw : SkillType.fromWire s = none) :
    deserializeSkill (skillToJsonWithCategory sk s) =
      .error (.invalidEnumValue "type" s) := by
  unfold deserializeSkill
  rw [decodeNN_badCategory sk s hfw, exceptErrorBind]

/-- Reading a present field reduces to decoding its value. -/
theorem reqField_some {α : Type} {j : Json} {k : String} {v : Json}
    (f : String → Json → Except LoadError α) (h : getField j k = some v) :
    reqField j k f = f k v := by
  unfold reqField
  rw [h]

/-- Decoding a `u8` from the canonical numeral of a `Fin 256` value succeeds
and returns that value. -/
theorem decodeU8_natCast (path : String) (n : Fin 256) :
    decodeU8 path (.num (n.val : Rat)) = .ok n := by
  have hnum : ((n.val : Rat)).num = n.val := Rat.num_natCast n.val
  have hcond : ((n.val : Rat)).den = 1 ∧ 0 ≤ ((n.val : Rat)).num ∧ ((n.val : Rat)).num ≤ 255 := by
    refine ⟨Rat.den_natCast n.val, ?_, ?_⟩ <;> rw [hnum]
    · exact Int.natCast_nonneg n.val
    · have := n.isLt; omega
  simp only [decodeU8]
  rw [dif_pos hcond]
  have hx : ((n.val : Rat)).num.toNat = n.val := by rw [hnum]; omega
  exact congrArg Except.ok (Fin.ext hx)

/-- Lookups coincide on every non-excluded key of structurally agreeing field
lists. -/
theorem lookupKey_of_agree {exc : List String} (kvs1 : List (String × Json)) :
    ∀ kvs2, agreeExcept exc kvs1 kvs2 →
      ∀ k, k ∉ exc → lookupKey k kvs1 = lookupKey k kvs2 := by
  induction kvs1 with
  | nil =>
    intro kvs2 h k hk
    cases kvs2 with
    | nil => rfl
    | cons q t2 => exact absurd h (by simp [agreeExcept])
  | cons p t1 ih =>
    intro kvs2 h k hk
    cases kvs2 with
    | nil => exact absurd h (by simp [agreeExcept])
    | cons q t2 =>
      obtain ⟨p1, v1⟩ := p
      obtain ⟨q1, v2⟩ := q
      simp only [agreeExcept] at h
      obtain ⟨hkey, hval, htail⟩ := h
      subst hkey
      unfold lookupKey
      split_ifs with he
      · rcases hval with hmem | hval
        · exact absurd hmem (he ▸ hk)
        · rw [hval]
      · exact ih t2 htail k hk

/-- The two concrete example documents agree on every field except the two map
fields. -/
theorem exampleDocsAgree : agreeExcept ["proficiencyLevels", "debuffs"]
    (jsonFields exampleDoc) (jsonFields exampleDocOtherMaps) :=
  ⟨rfl, .inr rfl, rfl, .inr rfl, rfl, .inr rfl, rfl, .inr rfl, rfl, .inr rfl,
   rfl, .inr rfl, rfl, .inr rfl, rfl, .inr rfl, rfl, .inr rfl, rfl, .inr rfl,
   rfl, .inr rfl, rfl, .inr rfl, rfl, .inr rfl,
   rfl, .inl (by decide), rfl, .inl (by decide),
   rfl, .inr rfl, rfl, .inr rfl, trivial⟩

/-! ### The claims -/

/-- C1, counterexample: a concrete document loads successfully, yet no column
of the produced tabular header — in particular none of the scalar section — is
named "baseDamageMultiplier.value": the Requirements and the four Measurement
composites are never flattened into dot-joined columns (the encoder drops
them entirely), refuting the claim as stated. -/
theorem c1_counterexample :
    deserializeSkill exampleDoc = .ok exampleSkill ∧
    ((serialize_csv_to_file exampleSkill "skill.json").2.map
      (fun pr => pr.1.any
        (fun line => (splitComma line).contains "baseDamageMultiplier.value"))) =
      some false :=
  ⟨rfl, rfl⟩

/-- C1, amended: for every skill, the scalar section of the tabular output
contains exactly one column per top-level scalar field (the eight
`SkillNotNested` fields, under their external names), with enum fields
re-encoded to canonical wire strings and the `u8` field printed in decimal;
the Requirements and Measurement composites are omitted, so no dot-joined
column such as "baseDamageMultiplier.value" or "requirements.actions"
appears.  (The value-line conjunct assumes the string fields contain no line
break, since the positional split would otherwise fragment the line.) -/
theorem c1_scalar_section_amended (sk : Skill) (p : String)
    (hclean : ∀ f ∈ scalarValueFields sk._not_nested_data, '\n' ∉ f.data) :
    ∃ hdr row, (serialize_csv_to_file sk p).2 = some (hdr, row) ∧
      splitComma (hdr.getD 0 "") = scalar_header_fields ∧
      "baseDamageMultiplier.value" ∉ splitComma (hdr.getD 0 "") ∧
      "requirements.actions" ∉ splitComma (hdr.getD 0 "") ∧
      row.getD 0 "" = csvRecordLine (scalarValueFields sk._not_nested_data) := by
  obtain ⟨b3, c3, t3, h3⟩ := split_vector_shape (csvRecordLine sk.aspects)
  have h2 := split_vector_clean (sk.required_reagents.map Reagents.serdeName)
    (by intro f hf; rcases List.mem_map.1 hf with ⟨r, -, rfl⟩; exact noNl_reagentName r)
  have hassm : (serialize_csv_to_file sk p).2 =
      some ([csvRecordLine scalar_header_fields,
             csvRecordLine (sk.required_reagents.map Reagents.serdeName), b3],
            [csvRecordLine (scalarValueFields sk._not_nested_data), "", c3]) := by
    show assembleSections
      [notNestedSection sk._not_nested_data,
       serialize_csv_vector (sk.required_reagents.map Reagents.serdeName),
       serialize_csv_vector sk.aspects] = _
    exact assemble3 (split_notNested_clean _ hclean) h2 h3
  refine ⟨_, _, hassm, ?_, ?_, ?_, ?_⟩
  · show splitComma (csvRecordLine scalar_header_fields) = scalar_header_fields
    decide
  · show "baseDamageMultiplier.value" ∉ splitComma (csvRecordLine scalar_header_fields)
    decide
  · show "requirements.actions" ∉ splitComma (csvRecordLine scalar_header_fields)
    decide
  · rfl

/-- Witness for the amended C1 at a concrete loaded skill. -/
theorem c1_scalar_section_amended_witness :
    (∀ f ∈ scalarValueFields exampleSkill._not_nested_data, '\n' ∉ f.data) ∧
    ∃ hdr row, (serialize_csv_to_file exampleSkill "skill.json").2 = some (hdr, row) ∧
      splitComma (hdr.getD 0 "") = scalar_header_fields ∧
      "baseDamageMultiplier.value" ∉ splitComma (hdr.getD 0 "") ∧
      "requirements.actions" ∉ splitComma (hdr.getD 0 "") ∧
      row.getD 0 "" = csvRecordLine (scalarValueFields exampleSkill._not_nested_data) :=
  ⟨by decide, c1_scalar_section_amended exampleSkill "skill.json" (by decide)⟩

/-- C2: `serialize_reagents` joins the ordered reagent list with "|" in its
lowercase-with-underscore `Borrow` form — [Blood, SparklingPowder] yields
"blood|sparkling_powder" — and the empty list yields the empty string
(no failure path exists). -/
theorem c2_reagent_join :
    serialize_reagents [Reagents.Blood, Reagents.SparklingPowder] = "blood|sparkling_powder" ∧
    serialize_reagents [] = "" :=
  ⟨rfl, rfl⟩

/-- C3 (code bug): handed a section whose text holds no line break (fewer than
two split parts), the row-assembler fold indexes split[1] out of bounds — the
Rust code panics, modelled here by `none`; it does not return an
`EncodingFailure` error (the code constructs no such error anywhere). -/
theorem c3_assembler_panics :
    assembleSections ["abilityName,type", "Blood\n", "melee\n"] = none := rfl

/-- C4 (code bug): on a valid record with two reagents and one aspect the
assembled header holds 11 comma-separated cells while the assembled row holds
10 — the list sections' data lines land in the header and empty strings in the
row, so header-column count and value-column count disagree. -/
theorem c4_cell_count_mismatch :
    ((serialize_csv_to_file exampleSkill "skill.json").2.map
      (fun pr => (totalCells pr.1, totalCells pr.2))) = some (11, 10) ∧
    (11 : Nat) ≠ 10 :=
  ⟨rfl, by decide⟩

/-- C5: for each of the six enums, decoding an enumerator's canonical wire
string yields that enumerator back (so re-encoding it reproduces the original
wire form): the decode-then-encode round-trip is the identity on canonical
wire forms. -/
theorem c5_enum_round_trip :
    (∀ e : SkillType, SkillType.fromWire (SkillType.wire e) = some e) ∧
    (∀ e : DamageType, DamageType.fromWire (DamageType.wire e) = some e) ∧
    (∀ e : ProficiencyLevel, ProficiencyLevel.fromWire (ProficiencyLevel.wire e) = some e) ∧
    (∀ e : Debuff, Debuff.fromWire (Debuff.wire e) = some e) ∧
    (∀ e : Reagents, Reagents.fromWire (Reagents.serdeName e) = some e) ∧
    (∀ e : Unit, Unit.fromWire (Unit.wire e) = some e) := by
  refine ⟨?_, ?_, ?_, ?_, ?_, ?_⟩ <;> intro e <;> cases e <;> rfl

/-- C6: a document whose category field carries a string outside the five
canonical wire forms never yields a Skill (first conjunct, over arbitrary
documents), and when every other field is well-formed the load fails exactly
with `InvalidEnumValue` at the `type` field (second conjunct). -/
theorem c6_invalid_enum_value :
    (∀ (j : Json) (s : String) (sk : Skill),
        getField j "type" = some (.str s) → s ∉ skillTypeWires →
        deserializeSkill j ≠ .ok sk) ∧
    (∀ (sk : Skill) (s : String), s ∉ skillTypeWires →
        deserializeSkill (skillToJsonWithCategory sk s) =
          .error (.invalidEnumValue "type" s)) := by
  constructor
  · intro j s sk hget hmem hok
    obtain ⟨hnn, -, -⟩ := deserializeSkill_ok_parts hok
    have hty := decodeNN_ok_type hnn
    rw [reqField_some decodeSkillType hget] at hty
    simp only [decodeSkillType, skillTypeFromWire_none hmem] at hty
    exact Except.noConfusion hty
  · intro sk s hmem
    exact deserializeSkill_badCategory sk s (skillTypeFromWire_none hmem)

/-- Witness for C6 at the concrete unknown wire value "FireballSkill". -/
theorem c6_invalid_enum_value_witness :
    ("FireballSkill" ∉ skillTypeWires) ∧
    deserializeSkill (skillToJsonWithCategory exampleSkill "FireballSkill") =
      .error (.invalidEnumValue "type" "FireballSkill") ∧
    deserializeSkill (skillToJsonWithCategory exampleSkill "FireballSkill") ≠
      .ok exampleSkill :=
  ⟨by decide,
   c6_invalid_enum_value.2 exampleSkill "FireballSkill" (by decide),
   c6_invalid_enum_value.1 (skillToJsonWithCategory exampleSkill "FireballSkill")
     "FireballSkill" exampleSkill (by rfl) (by decide)⟩

/-- C7 (code bug): on a concrete loaded skill the function does set the
destination name's extension to "csv", but its entire observable outcome is
the pair of three-entry line vectors shown here (with the list data lines in
the header vector); no single two-line comma-separated payload is assembled,
and the Rust function never writes anything to the destination — it only logs
and prints this pair. -/
theorem c7_observable_outcome :
    serialize_csv_to_file exampleSkill "skill.json" =
      ("skill.csv",
       some (["abilityName,type,shortDescription,extendedDescription,narrative,cooldownSeconds,damageType,requiredSkill",
              "Blood,SparklingPowder", "melee"],
             ["Fireball,SpellSkill,Hurls fire,Hurls a ball of fire,A classic,30,Magical,Arcana",
              "", ""])) := rfl

/-- C8, counterexample: a document carrying the Requirements data only as
top-level pre-flattened dotted keys ("requirements.actions" /
"requirements.conditions", no nested requirements object) is rejected with
`MissingRequiredField requirements` — the serde alias does not make the loader
accept a pre-flattened document. -/
theorem c8_counterexample :
    deserializeSkill flatReqDoc = .error (.missingRequiredField "requirements") := rfl

/-- C8, amended: the alias applies inside the nested requirements object: the
loader accepts either the plain keys (actions/conditions) or the dotted keys
(requirements.actions/requirements.conditions) there, producing the same
`SkillRequirements` value in either case. -/
theorem c8_alias_amended (a : Fin 256) (c : String) :
    decodeSkillRequirements "requirements"
        (Json.obj [("actions", .num (a.val : Rat)), ("conditions", .str c)]) =
      .ok ⟨a, c⟩ ∧
    decodeSkillRequirements "requirements"
        (Json.obj [("requirements.actions", .num (a.val : Rat)),
                   ("requirements.conditions", .str c)]) =
      .ok ⟨a, c⟩ := by
  constructor
  · have h1 : decodeSkillRequirements "requirements"
        (Json.obj [("actions", .num (a.val : Rat)), ("conditions", .str c)]) =
        (decodeU8 "actions" (.num (a.val : Rat)) >>= fun x =>
          (decodeString "conditions" (.str c) >>= fun y => pure ⟨x, y⟩)) := rfl
    rw [h1, decodeU8_natCast, exceptOkBind]
    rfl
  · have h2 : decodeSkillRequirements "requirements"
        (Json.obj [("requirements.actions", .num (a.val : Rat)),
                   ("requirements.conditions", .str c)]) =
        (decodeU8 "actions" (.num (a.val : Rat)) >>= fun x =>
          (decodeString "conditions" (.str c) >>= fun y => pure ⟨x, y⟩)) := rfl
    rw [h2, decodeU8_natCast, exceptOkBind]
    rfl

/-- C9: two well-formed documents that agree on every field except their
`proficiencyLevels` and `debuffs` entries load to skills with identical
tabular output — the maps have no influence on the produced header and row. -/
theorem c9_maps_no_influence (d1 d2 : Json) (s1 s2 : Skill) (p : String)
    (h1 : deserializeSkill d1 = .ok s1) (h2 : deserializeSkill d2 = .ok s2)
    (hag : ∀ k, k ≠ "proficiencyLevels" → k ≠ "debuffs" → getField d1 k = getField d2 k) :
    serialize_csv_to_file s1 p = serialize_csv_to_file s2 p := by
  obtain ⟨hnn1, hrg1, hasp1⟩ := deserializeSkill_ok_parts h1
  obtain ⟨hnn2, hrg2, hasp2⟩ := deserializeSkill_ok_parts h2
  have enn : s1._not_nested_data = s2._not_nested_data := by
    have hc := decodeSkillNotNested_congr hag
    rw [hnn1, hnn2] at hc
    exact Except.ok.inj hc
  have erg : s1.required_reagents = s2.required_reagents := by
    have hc := reqField_congr decodeReagentsList (hag "requiredReagents" (by decide) (by decide))
    rw [hrg1, hrg2] at hc
    exact Except.ok.inj hc
  have easp : s1.aspects = s2.aspects := by
    have hc := reqField_congr decodeAspects (hag "aspects" (by decide) (by decide))
    rw [hasp1, hasp2] at hc
    exact Except.ok.inj hc
  exact serialize_congr p enn erg easp

/-- Witness for C9 at two concrete documents differing only in their map
entries. -/
theorem c9_maps_no_influence_witness :
    deserializeSkill exampleDoc = .ok exampleSkill ∧
    deserializeSkill exampleDocOtherMaps = .ok exampleSkillOtherMaps ∧
    (∀ k, k ≠ "proficiencyLevels" → k ≠ "debuffs" →
      getField exampleDoc k = getField exampleDocOtherMaps k) ∧
    serialize_csv_to_file exampleSkill "skill.json" =
      serialize_csv_to_file exampleSkillOtherMaps "skill.json" :=
  ⟨rfl, rfl,
   fun k hk1 hk2 =>
     lookupKey_of_agree (jsonFields exampleDoc) (jsonFields exampleDocOtherMaps)
       exampleDocsAgree k (by simp [hk1, hk2]),
   c9_maps_no_influence exampleDoc exampleDocOtherMaps exampleSkill exampleSkillOtherMaps
     "skill.json" rfl rfl
     (fun k hk1 hk2 =>
       lookupKey_of_agree (jsonFields exampleDoc) (jsonFields exampleDocOtherMaps)
         exampleDocsAgree k (by simp [hk1, hk2]))⟩

/-- C10, counterexample: with a non-empty reagent list and the non-empty
aspect list ["a\nb"], the aspect cell of the final row is "b\"" — not empty —
because the csv writer quotes the line break inside the field and the
assembler's split cuts straight through it, refuting the claim's universal
"always empty". -/
theorem c10_counterexample :
    serialize_csv_to_file exampleSkillNlAspect "skill.json" =
      ("skill.csv",
       some (["abilityName,type,shortDescription,extendedDescription,narrative,cooldownSeconds,damageType,requiredSkill",
              "Blood,SparklingPowder", "\"a"],
             ["Fireball,SpellSkill,Hurls fire,Hurls a ball of fire,A classic,30,Magical,Arcana",
              "", "b\""])) ∧
    ("b\"" : String) ≠ "" :=
  ⟨rfl, by decide⟩

/-- C10, amended: for every skill with non-empty reagent and aspect lists
whose aspects contain no line break, the vector serializer emits no header
line — only one data line plus the record terminator — so the positional split
places each list section's data line into the assembled header sequence and an
empty string into the assembled value sequence: the reagent and aspect cells
of the final row are empty.  (Reagent wire names are always break-free; an
aspect containing a line break falls outside this guarantee, see the
counterexample.) -/
theorem c10_list_sections_amended (sk : Skill) (p : String)
    (_hrg : sk.required_reagents ≠ []) (_hasp : sk.aspects ≠ [])
    (hclean : ∀ a ∈ sk.aspects, '\n' ∉ a.data) :
    ∃ hdr row, (serialize_csv_to_file sk p).2 = some (hdr, row) ∧
      hdr.getD 1 "" = csvRecordLine (sk.required_reagents.map Reagents.serdeName) ∧
      hdr.getD 2 "" = csvRecordLine sk.aspects ∧
      row.getD 1 "" = "" ∧ row.getD 2 "" = "" := by
  obtain ⟨bv, cv, tv, hv⟩ :=
    split_vector_shape (csvRecordLine (scalarValueFields sk._not_nested_data))
  have h1 : splitNl (notNestedSection sk._not_nested_data) =
      csvRecordLine scalar_header_fields :: bv :: cv :: tv := by
    rw [split_notNested, hv]
  have h2 := split_vector_clean (sk.required_reagents.map Reagents.serdeName)
    (by intro f hf; rcases List.mem_map.1 hf with ⟨r, -, rfl⟩; exact noNl_reagentName r)
  have h3 := split_vector_clean sk.aspects hclean
  have hassm : (serialize_csv_to_file sk p).2 =
      some ([csvRecordLine scalar_header_fields,
             csvRecordLine (sk.required_reagents.map Reagents.serdeName),
             csvRecordLine sk.aspects],
            [bv, "", ""]) := by
    show assembleSections
      [notNestedSection sk._not_nested_data,
       serialize_csv_vector (sk.required_reagents.map Reagents.serdeName),
       serialize_csv_vector sk.aspects] = _
    exact assemble3 h1 h2 h3
  exact ⟨_, _, hassm, rfl, rfl, rfl, rfl⟩

/-- Witness for the amended C10 at a concrete skill. -/
theorem c10_list_sections_amended_witness :
    (exampleSkill.required_reagents ≠ [] ∧ exampleSkill.aspects ≠ [] ∧
      ∀ a ∈ exampleSkill.aspects, '\n' ∉ a.data) ∧
    ∃ hdr row, (serialize_csv_to_file exampleSkill "skill.json").2 = some (hdr, row) ∧
      hdr.getD 1 "" = csvRecordLine (exampleSkill.required_reagents.map Reagents.serdeName) ∧
      hdr.getD 2 "" = csvRecordLine exampleSkill.aspects ∧
      row.getD 1 "" = "" ∧ row.getD 2 "" = "" :=
  ⟨⟨by decide, by decide, by decide⟩,
   c10_list_sections_amended exampleSkill "skill.json" (by decide) (by decide) (by decide)⟩

end Converter
